import Mathlib

/-!
Verification development for the gift-card listing marketplace core
(`app.py`): the data model, the payment verifier, the listing store and
the lifecycle operations, together with theorems checking the
specification's claims about them.

Modelling conventions.
* Machine-level nondeterminism (uuid4 identifiers, `datetime.now()` clock
  reads) is passed in as explicit parameters.
* Timestamps (`datetime.now()` and `isoformat()` renderings thereof) are
  modelled as integer microsecond counts; `isoformat` is an injective,
  order-preserving rendering, so arithmetic facts transfer.
* The JSON file store is modelled at the value level (see `FileContent`):
  a well-formed file holds the listing sequence it serializes.
-/

/-- Payment details embedded in a listing (`create_listing`, app.py
lines 129-134). -/
structure PaymentDetails where
  gift_card_number : String
  card_name : String
  amount : String
  verified : Bool
deriving Repr, DecidableEq

/-- A listing record as persisted in `listings.json` (app.py lines 122-138). -/
structure Listing where
  id : String
  full_name : String
  email : String
  title : String
  description : String
  image_url : Option String
  payment_details : PaymentDetails
  status : String
  created_at : Int
  verification_date : Int
deriving Repr, DecidableEq

/-! ### A model of Python `float(str)` parsing

`verify_payment` calls `float(amount)` and only compares the result with
`0`.  We model the accepted string grammar of CPython's `float`
constructor (optional ASCII whitespace, optional sign, `inf`/`infinity`/
`nan` case-insensitively, or a decimal literal with optional fraction,
exponent and PEP 515 single underscores between digits), keeping the
parsed magnitude exactly as `m * 10^(e-d)`.  CPython additionally
normalizes non-ASCII decimal digits and spaces; that normalization step
is outside this model, which reads ASCII. -/

/-- Characters stripped from both ends by Python `float(str)`
(ASCII whitespace). -/
def isPySpace (c : Char) : Bool :=
  c = ' ' || c = '\t' || c = '\n' || c = '\r' || c = Char.ofNat 11 || c = Char.ofNat 12

/-- Continue a digit run, allowing a single underscore between digits
(PEP 515).  Returns the digits consumed and the unconsumed remainder. -/
def digitsAfter : List Char → List Char × List Char
  | '_' :: c :: rest =>
    if c.isDigit then
      let (ds, r) := digitsAfter rest
      (c :: ds, r)
    else ([], '_' :: c :: rest)
  | c :: rest =>
    if c.isDigit then
      let (ds, r) := digitsAfter rest
      (c :: ds, r)
    else ([], c :: rest)
  | [] => ([], [])

/-- Numeric value of a digit run. -/
def natOfDigits (ds : List Char) : Nat :=
  ds.foldl (fun a c => a * 10 + (c.toNat - '0'.toNat)) 0

/-- One `digitpart` of the grammar: a digit followed by a digit run. -/
def parseDigitpart : List Char → Option (List Char × List Char)
  | c :: rest =>
    if c.isDigit then
      let (ds, r) := digitsAfter rest
      some (c :: ds, r)
    else none
  | [] => none

/-- Mantissa `digitpart [. [digitpart]] | . digitpart`; yields the mantissa
as an integer `m` with `d` fractional digits, plus the remainder. -/
def parseMantissa (cs : List Char) : Option (Nat × Nat × List Char) :=
  match parseDigitpart cs with
  | some (ip, rest) =>
    match rest with
    | '.' :: rest2 =>
      match parseDigitpart rest2 with
      | some (fp, rest3) => some (natOfDigits (ip ++ fp), fp.length, rest3)
      | none => some (natOfDigits ip, 0, rest2)
    | _ => some (natOfDigits ip, 0, rest)
  | none =>
    match cs with
    | '.' :: rest2 =>
      match parseDigitpart rest2 with
      | some (fp, rest3) => some (natOfDigits fp, fp.length, rest3)
      | none => none
    | _ => none

/-- Result of Python `float(str)`: nan, signed infinity, or a finite value
`(-1)^neg * m * 10^(e-d)` kept exactly. -/
inductive PyFloat where
  | nan
  | inf (neg : Bool)
  | finite (neg : Bool) (m : Nat) (d : Nat) (e : Int)
deriving Repr, DecidableEq

/-- Parse mantissa plus optional exponent; the whole input must be consumed. -/
def pyFloatNumber (neg : Bool) (cs : List Char) : Option PyFloat :=
  match parseMantissa cs with
  | none => none
  | some (m, d, rest) =>
    match rest with
    | [] => some (.finite neg m d 0)
    | e :: rest2 =>
      if e = 'e' || e = 'E' then
        let se : Int × List Char :=
          match rest2 with
          | '+' :: r => (1, r)
          | '-' :: r => (-1, r)
          | r => (1, r)
        match parseDigitpart se.2 with
        | some (ds, rest4) =>
          if rest4.isEmpty then some (.finite neg m d (se.1 * (natOfDigits ds : Int)))
          else none
        | none => none
      else none

/-- Body after the optional sign: `inf`, `infinity`, `nan`
(case-insensitively) or a number. -/
def pyFloatSigned (neg : Bool) (body : List Char) : Option PyFloat :=
  let low := body.map Char.toLower
  if low = "inf".data || low = "infinity".data then some (.inf neg)
  else if low = "nan".data then some .nan
  else pyFloatNumber neg body

/-- Model of Python `float(s)`: `none` is a `ValueError`. -/
def pyFloat (s : String) : Option PyFloat :=
  let cs := ((s.data.dropWhile isPySpace).reverse.dropWhile isPySpace).reverse
  match cs with
  | '+' :: body => pyFloatSigned false body
  | '-' :: body => pyFloatSigned true body
  | body => pyFloatSigned false body

/-- Whether the IEEE-754 double produced from the parse satisfies
`amount_float <= 0` (app.py line 48).  `nan <= 0` is false; a finite
positive magnitude rounds to `+0.0` exactly when it is at most
`2^(-1075)` (the round-to-nearest-even tie with the least subnormal
rounds down to zero); every negative magnitude rounds to a double
`<= -0.0 <= 0`. -/
def pyFloatLe0 : PyFloat → Bool
  | .nan => false
  | .inf neg => neg
  | .finite neg m d e =>
    if m = 0 then true
    else if neg then true
    else
      let t : Int := e - d
      if 0 ≤ t then false
      else Nat.ble (m * 2 ^ 1075) (10 ^ (-t).toNat)

/-- Payment verifier (`verify_payment`, app.py lines 32-55): a pure
function from the three form inputs to pass/fail plus a reason.  The
`not x` truthiness tests on the string inputs are emptiness tests. -/
def verify_payment (gift_card_number card_name amount : String) : Bool × String :=
  if gift_card_number = "" ∨ card_name = "" ∨ amount = "" then
    (false, "All payment fields are required")
  else if gift_card_number.length < 8 then
    (false, "Invalid gift card number format")
  else
    match pyFloat amount with
    | none => (false, "Invalid amount format")
    | some v =>
      if pyFloatLe0 v then (false, "Amount must be positive")
      else (true, "Payment verification successful")

/-! ### Listing feed -/

/-- Python `str.lower()` restricted to its ASCII action, character by
character. -/
def strLower (s : String) : String := ⟨s.data.map Char.toLower⟩

/-- Public listings endpoint (`get_listings`, app.py lines 57-70).
`approved_only_param` models `request.args.get('approved_only')`; the
route performs no authorization check.  The filter applies exactly when
the parameter, defaulted to `"true"`, lower-cases to `"true"`. -/
def get_listings (approved_only_param : Option String) (listings : List Listing) :
    List Listing :=
  let approved_only := strLower (approved_only_param.getD "true") == "true"
  if approved_only then listings.filter (fun l => l.status == "Approved") else listings

/-- The default public view: `GET /api/listings` with no query parameter. -/
def listPublic (listings : List Listing) : List Listing :=
  get_listings none listings

/-! ### Creation -/

/-- Modelled from the spec: `ALLOWED_EXTENSIONS` lives in `config.py`,
which is not among the provided sources; §4.3 of the specification gives
the set as png, jpg, jpeg, gif. -/
def ALLOWED_EXTENSIONS : List String := ["png", "jpg", "jpeg", "gif"]

/-- Substring after the last dot, i.e. `filename.rsplit('.', 1)[1]` when a
dot is present. -/
def extAfterLastDot (filename : String) : String :=
  ⟨(filename.data.reverse.takeWhile (fun c => c ≠ '.')).reverse⟩

/-- File-extension filter (`allowed_file`, app.py lines 27-30). -/
def allowed_file (filename : String) : Bool :=
  filename.contains '.' && ALLOWED_EXTENSIONS.contains (strLower (extAfterLastDot filename))

/-- The required-field list of `create_listing` (app.py lines 96-97), in
source order. -/
def required_fields : List String :=
  ["full_name", "email", "title", "description", "gift_card_number", "card_name", "amount"]

/-- Form lookup, modelling `request.form.to_dict()` access (first value
for a key). -/
def formGet (data : List (String × String)) (k : String) : Option String :=
  (data.find? (fun p => p.1 == k)).map (·.2)

/-- The test `field not in data or not data[field]` (app.py line 100):
absent key or empty value. -/
def fieldMissing (data : List (String × String)) (f : String) : Bool :=
  match formGet data f with
  | none => true
  | some v => v == ""

/-- The validation loop (app.py lines 99-101): the first required field
that is missing or empty, if any. -/
def firstMissingField (data : List (String × String)) : Option String :=
  required_fields.find? (fieldMissing data)

/-- Python `s[-4:]`: the last `n` characters (the whole string when it is
shorter). -/
def takeLast (n : Nat) (s : String) : String :=
  ⟨s.data.drop (s.data.length - n)⟩

/-- The value `data[k]` read on a path where the field is known present;
the `""` default is never exercised after `firstMissingField` returns
`none`. -/
def formField (data : List (String × String)) (k : String) : String :=
  (formGet data k).getD ""

/-- Microseconds in `timedelta(days=1)`. -/
def usPerDay : Int := 86400000000

/-- An uploaded file, reduced to the field the core reads. -/
structure FileUpload where
  filename : String
deriving Repr, DecidableEq

/-- Outcome of `create_listing`. -/
inductive CreateResult where
  | missingField (field : String)
  | paymentError (message : String)
  | created (listing : Listing)
deriving Repr, DecidableEq

/-- The listing object built at app.py lines 122-138: redacted gift-card
number (`data['gift_card_number'][-4:]`), status `"Pending"`, `created_at`
from the first clock read, `verification_date` from the second clock read
plus `timedelta(days=1)`, and the image reference when an upload with an
allowed extension was supplied. -/
def builtListing (data : List (String × String)) (file : Option FileUpload)
    (imageName newId : String) (now1 now2 : Int) : Listing :=
  { id := newId
    full_name := formField data "full_name"
    email := formField data "email"
    title := formField data "title"
    description := formField data "description"
    image_url :=
      match file with
      | some fu =>
        if fu.filename != "" && allowed_file fu.filename then
          some ("/uploads/" ++ imageName)
        else none
      | none => none
    payment_details :=
      { gift_card_number := takeLast 4 (formField data "gift_card_number")
        card_name := formField data "card_name"
        amount := formField data "amount"
        verified := (verify_payment (formField data "gift_card_number")
          (formField data "card_name") (formField data "amount")).1 }
    status := "Pending"
    created_at := now1
    verification_date := now2 + usPerDay }

/-- Listing creation (`create_listing`, app.py lines 87-156).
Nondeterministic inputs are parameters: `imageName` (the uuid4-prefixed
secure filename of line 116), `newId` (the uuid4 of line 123), and the
two clock reads `now1` (line 136) and `now2` (line 137).  The function
returns the result together with the persisted store; every failure path
returns before the file write, so there the store comes back unchanged. -/
def create_listing (data : List (String × String)) (file : Option FileUpload)
    (imageName newId : String) (now1 now2 : Int)
    (store : List Listing) : CreateResult × List Listing :=
  match firstMissingField data with
  | some f => (.missingField f, store)
  | none =>
    if (verify_payment (formField data "gift_card_number")
        (formField data "card_name") (formField data "amount")).1 = false then
      (.paymentError (verify_payment (formField data "gift_card_number")
        (formField data "card_name") (formField data "amount")).2, store)
    else
      (.created (builtListing data file imageName newId now1 now2),
       store ++ [builtListing data file imageName newId now1 now2])

/-! ### Moderation -/

/-- Outcome of `update_listing`, after the authorization gate (the gate
itself is boundary plumbing outside this core). -/
inductive ModerateResult where
  | notFound
  | invalidAction
  | ok (message : String)
deriving Repr, DecidableEq

/-- The index-search loop of `update_listing` (app.py lines 176-180):
index of the first listing with the given id. -/
def findIndexById : List Listing → String → Option Nat
  | [], _ => none
  | l :: ls, listing_id =>
    if l.id == listing_id then some 0 else (findIndexById ls listing_id).map (· + 1)

/-- In-place update of the element at an index, as in
`listings[listing_index]['status'] = ...`. -/
def modifyIdx (st : List Listing) (i : Nat) (f : Listing → Listing) : List Listing :=
  match st[i]? with
  | some x => st.set i (f x)
  | none => st

/-- Moderation (`update_listing`, app.py lines 158-212).  Looks up the id
in the freshly loaded collection; `delete` pops the record, `approve` and
`reject` overwrite its status, anything else is an invalid action.  The
returned store is the one persisted; the not-found and invalid-action
paths return before the file write. -/
def update_listing (listing_id : String) (action : Option String)
    (listings : List Listing) : ModerateResult × List Listing :=
  match findIndexById listings listing_id with
  | none => (.notFound, listings)
  | some i =>
    if action == some "delete" then
      (.ok "Listing deleted successfully", listings.eraseIdx i)
    else if action == some "approve" then
      (.ok "Listing approved successfully",
        modifyIdx listings i (fun l => { l with status := "Approved" }))
    else if action == some "reject" then
      (.ok "Listing rejected successfully",
        modifyIdx listings i (fun l => { l with status := "Rejected" }))
    else
      (.invalidAction, listings)

/-- Status of the (first) listing with a given id; `none` when no such
listing is stored (deleted / never created). -/
def statusOf (listings : List Listing) (listing_id : String) : Option String :=
  (listings.find? (fun l => l.id == listing_id)).map Listing.status

/-- One externally triggered state-changing operation on the store. -/
inductive Op where
  | createOp (data : List (String × String)) (file : Option FileUpload)
      (imageName newId : String) (now1 now2 : Int)
  | moderateOp (listing_id : String) (action : Option String)
deriving Repr, DecidableEq

/-- Effect of one operation on the persisted store. -/
def applyOp : Op → List Listing → List Listing
  | .createOp data file imageName newId now1 now2, st =>
    (create_listing data file imageName newId now1 now2 st).2
  | .moderateOp listing_id action, st => (update_listing listing_id action st).2

/-! ### Persistence -/

/-- On-disk state of `listings.json` at the JSON-value level.  `absent`
is a missing file (before `init_data_file`), `truncated` is the empty
file left by `open(DATA_FILE, 'w')` before `json.dump` has written, and
`json ls` is a complete well-formed serialization of `ls`. -/
inductive FileContent where
  | absent
  | truncated
  | json (listings : List Listing)
deriving Repr, DecidableEq

/-- Read path (`init_data_file` then `json.load`, app.py lines 21-25 and
60-62): an absent file is initialized to an empty array; a truncated file
fails JSON decoding with a `ValueError`; complete contents decode to
exactly the serialized records (`json.dump`/`json.load` round-trip on
listing records). -/
def loadAll : FileContent → Except String (List Listing)
  | .absent => .ok []
  | .truncated => .error "Expecting value: line 1 column 1 (char 0)"
  | .json ls => .ok ls

/-- Observable on-disk states during
`with open(DATA_FILE, 'w') as f: json.dump(listings, f, indent=2)`
(app.py lines 147-148 and 209-210): `open(..., 'w')` truncates the file
immediately, then the serialized text is written.  Interrupting the call
leaves one of these states on disk. -/
def saveAllTrace (listings : List Listing) : List FileContent :=
  [.truncated, .json listings]

/-- A completed, uninterrupted write: the final state of the trace. -/
def saveAll (listings : List Listing) : FileContent := .json listings

/-! ### Substring occurrence (for the redaction claims) -/

/-- Whether `n` occurs as a contiguous sublist of the second list. -/
def listOccurs (n : List Char) : List Char → Bool
  | [] => n.isEmpty
  | c :: cs => List.isPrefixOf n (c :: cs) || listOccurs n cs

/-- Whether `needle` occurs as a substring of `hay`. -/
def strOccurs (needle hay : String) : Bool :=
  listOccurs needle.data hay.data

/-- Whether a string occurs in any textual field of a persisted record. -/
def occursInListing (s : String) (l : Listing) : Bool :=
  strOccurs s l.id || strOccurs s l.full_name || strOccurs s l.email ||
  strOccurs s l.title || strOccurs s l.description ||
  strOccurs s (l.image_url.getD "") ||
  strOccurs s l.payment_details.gift_card_number ||
  strOccurs s l.payment_details.card_name ||
  strOccurs s l.payment_details.amount || strOccurs s l.status

/-- Projection used by concrete counterexamples. -/
def createdListing : CreateResult → Option Listing
  | .created l => some l
  | _ => none

/-- A concrete listing record for witnesses and counterexamples. -/
def demoListing (i status : String) : Listing :=
  { id := i
    full_name := "f"
    email := "e@x.y"
    title := "t"
    description := "d"
    image_url := none
    payment_details :=
      { gift_card_number := "1234", card_name := "n", amount := "10", verified := true }
    status := status
    created_at := 0
    verification_date := usPerDay }

/-! ### Helper lemmas -/

lemma isPrefixOf_length_le : ∀ (n h : List Char), List.isPrefixOf n h = true → n.length ≤ h.length
  | [], _, _ => Nat.zero_le _
  | _ :: _, [], hp => by simp [List.isPrefixOf] at hp
  | a :: as, b :: bs, hp => by
    simp only [List.isPrefixOf, Bool.and_eq_true] at hp
    simpa using Nat.succ_le_succ (isPrefixOf_length_le as bs hp.2)

lemma listOccurs_length_le : ∀ (n h : List Char), listOccurs n h = true → n.length ≤ h.length
  | n, [], ho => by
    simp only [listOccurs, List.isEmpty_iff] at ho
    simp [ho]
  | n, c :: cs, ho => by
    simp only [listOccurs, Bool.or_eq_true] at ho
    rcases ho with hp | ho
    · exact isPrefixOf_length_le _ _ hp
    · exact le_trans (listOccurs_length_le n cs ho) (Nat.le_succ _)

lemma find?_eq_some_first {α : Type} (p : α → Bool) (l : List α) (a : α)
    (h : l.find? p = some a) :
    p a = true ∧ ∃ l₁ l₂, l = l₁ ++ a :: l₂ ∧ ∀ x ∈ l₁, p x = false := by
  induction l with
  | nil => simp at h
  | cons b bs ih =>
    cases hpb : p b with
    | true =>
      rw [List.find?_cons_of_pos _ hpb] at h
      obtain rfl : b = a := by injection h
      exact ⟨hpb, [], bs, rfl, by simp⟩
    | false =>
      rw [List.find?_cons_of_neg _ (by simp [hpb])] at h
      obtain ⟨hpa, l₁, l₂, rfl, hall⟩ := ih h
      refine ⟨hpa, b :: l₁, l₂, rfl, ?_⟩
      intro x hx
      rcases List.mem_cons.mp hx with rfl | hx
      · exact hpb
      · exact hall x hx

/-! ### C2 -/

/-- C2: `listPublic` returns exactly the listings whose status is
`"Approved"`, in store order; in particular it never includes a listing
with status `"Pending"` or `"Rejected"`, for any store contents. -/
theorem listPublic_exactly_approved (listings : List Listing) :
    listPublic listings = listings.filter (fun l => l.status == "Approved")
    ∧ ∀ l ∈ listPublic listings,
        l.status = "Approved" ∧ l.status ≠ "Pending" ∧ l.status ≠ "Rejected" := by
  have hcond : (strLower "true" == "true") = true := by decide
  have hfilter : listPublic listings = listings.filter (fun l => l.status == "Approved") := by
    simp [listPublic, get_listings, hcond]
  refine ⟨hfilter, ?_⟩
  intro l hl
  rw [hfilter] at hl
  have hst : l.status = "Approved" := by simpa using (List.mem_filter.mp hl).2
  exact ⟨hst, by simp [hst], by simp [hst]⟩

/-- Witness for `listPublic_exactly_approved` at a concrete two-listing store. -/
theorem listPublic_exactly_approved_witness :
    (demoListing "2" "Approved").status = "Approved"
    ∧ (demoListing "2" "Approved").status ≠ "Pending"
    ∧ (demoListing "2" "Approved").status ≠ "Rejected" :=
  (listPublic_exactly_approved [demoListing "1" "Pending", demoListing "2" "Approved"]).2
    (demoListing "2" "Approved") (by decide)

/-! ### C10 -/

/-- C10: supplying `approved_only` with any value that does not lower-case
to `"true"` (for example `"false"`) makes the public listings operation
return every stored listing, with no admin credential involved; the
Approved-only filter applies exactly when the parameter is absent or
lower-cases to `"true"`. -/
theorem get_listings_filter_bypass (p : String) (listings : List Listing)
    (h : strLower p ≠ "true") :
    get_listings (some p) listings = listings
    ∧ get_listings none listings = listings.filter (fun l => l.status == "Approved")
    ∧ ∀ q : String, strLower q = "true" →
        get_listings (some q) listings = listings.filter (fun l => l.status == "Approved") := by
  refine ⟨?_, ?_, ?_⟩
  · have hc : (strLower p == "true") = false := by simp [h]
    simp [get_listings, hc]
  · have hc : (strLower "true" == "true") = true := by decide
    simp [get_listings, hc]
  · intro q hq
    have hc : (strLower q == "true") = true := by simp [hq]
    simp [get_listings, hc]

/-- Witness for `get_listings_filter_bypass`: `approved_only=false`
exposes a Pending listing. -/
theorem get_listings_filter_bypass_witness :
    get_listings (some "false") [demoListing "1" "Pending"] = [demoListing "1" "Pending"] :=
  (get_listings_filter_bypass "false" [demoListing "1" "Pending"] (by decide)).1

/-! ### C3 -/

/-- C3 counterexample: the verifier's reason strings are capitalized in
the code; at the concrete input `("", "name", "10")` the verifier fails
with reason `"All payment fields are required"`, which differs from the
claimed all-lowercase reason `"all payment fields are required"`. -/
theorem verify_payment_reason_case_cex :
    verify_payment "" "name" "10" = (false, "All payment fields are required")
    ∧ ("All payment fields are required" : String) ≠ "all payment fields are required" :=
  ⟨by decide, by decide⟩

/-- C3 (amended): `verify_payment` fails with reason
`"All payment fields are required"` when any input is empty, with
`"Invalid gift card number format"` when the number is shorter than 8
characters, with `"Invalid amount format"` when the amount does not parse
as a Python float, with `"Amount must be positive"` when it parses to a
value ≤ 0, and succeeds on every other input; reasons are capitalized as
in the code.  It is a pure function of its three inputs. -/
theorem verify_payment_cases (g c a : String) :
    ((g = "" ∨ c = "" ∨ a = "") →
       verify_payment g c a = (false, "All payment fields are required"))
    ∧ (g ≠ "" → c ≠ "" → a ≠ "" → g.length < 8 →
       verify_payment g c a = (false, "Invalid gift card number format"))
    ∧ (g ≠ "" → c ≠ "" → a ≠ "" → 8 ≤ g.length → pyFloat a = none →
       verify_payment g c a = (false, "Invalid amount format"))
    ∧ (∀ v, g ≠ "" → c ≠ "" → a ≠ "" → 8 ≤ g.length → pyFloat a = some v →
       pyFloatLe0 v = true →
       verify_payment g c a = (false, "Amount must be positive"))
    ∧ (∀ v, g ≠ "" → c ≠ "" → a ≠ "" → 8 ≤ g.length → pyFloat a = some v →
       pyFloatLe0 v = false →
       verify_payment g c a = (true, "Payment verification successful")) := by
  unfold verify_payment
  refine ⟨?_, ?_, ?_, ?_, ?_⟩
  · intro h; rw [if_pos h]
  · intro h1 h2 h3 h4
    rw [if_neg (by simp [h1, h2, h3]), if_pos h4]
  · intro h1 h2 h3 h4 h5
    rw [if_neg (by simp [h1, h2, h3]), if_neg (by omega), h5]
  · intro v h1 h2 h3 h4 h5 h6
    rw [if_neg (by simp [h1, h2, h3]), if_neg (by omega), h5]
    simp [h6]
  · intro v h1 h2 h3 h4 h5 h6
    rw [if_neg (by simp [h1, h2, h3]), if_neg (by omega), h5]
    simp [h6]

/-- Witness for `verify_payment_cases`, one concrete input per branch. -/
theorem verify_payment_cases_witness :
    verify_payment "" "name" "10" = (false, "All payment fields are required")
    ∧ verify_payment "1234" "name" "10" = (false, "Invalid gift card number format")
    ∧ verify_payment "12345678" "name" "abc" = (false, "Invalid amount format")
    ∧ verify_payment "12345678" "name" "-5" = (false, "Amount must be positive")
    ∧ verify_payment "12345678" "name" "10" = (true, "Payment verification successful") :=
  ⟨(verify_payment_cases "" "name" "10").1 (Or.inl rfl),
   (verify_payment_cases "1234" "name" "10").2.1 (by decide) (by decide) (by decide) (by decide),
   (verify_payment_cases "12345678" "name" "abc").2.2.1 (by decide) (by decide) (by decide)
     (by decide) (by decide),
   (verify_payment_cases "12345678" "name" "-5").2.2.2.1 (PyFloat.finite true 5 0 0)
     (by decide) (by decide) (by decide) (by decide) (by decide) (by decide),
   (verify_payment_cases "12345678" "name" "10").2.2.2.2 (PyFloat.finite false 10 0 0)
     (by decide) (by decide) (by decide) (by decide) (by decide) (by decide)⟩

/-! ### Creation characterization -/

lemma verify_payment_true_length {g c a : String}
    (h : (verify_payment g c a).1 = true) : g ≠ "" ∧ 8 ≤ g.length := by
  unfold verify_payment at h
  by_cases h1 : g = "" ∨ c = "" ∨ a = ""
  · rw [if_pos h1] at h; simp at h
  · rw [if_neg h1] at h
    by_cases h2 : g.length < 8
    · rw [if_pos h2] at h; simp at h
    · exact ⟨fun hg => h1 (Or.inl hg), by omega⟩

lemma create_listing_created_eq {data : List (String × String)} {file : Option FileUpload}
    {imageName newId : String} {now1 now2 : Int} {store : List Listing}
    {l : Listing} {store' : List Listing}
    (h : create_listing data file imageName newId now1 now2 store = (.created l, store')) :
    firstMissingField data = none
    ∧ (verify_payment (formField data "gift_card_number")
        (formField data "card_name") (formField data "amount")).1 = true
    ∧ l = builtListing data file imageName newId now1 now2
    ∧ store' = store ++ [l] := by
  unfold create_listing at h
  cases hm : firstMissingField data with
  | some f => rw [hm] at h; exact absurd h (by simp)
  | none =>
    rw [hm] at h
    by_cases hv : (verify_payment (formField data "gift_card_number")
        (formField data "card_name") (formField data "amount")).1 = false
    · rw [if_pos hv] at h
      exact absurd h (by simp)
    · rw [if_neg hv] at h
      rw [Prod.mk.injEq] at h
      obtain ⟨h1, h2⟩ := h
      rw [CreateResult.created.injEq] at h1
      refine ⟨rfl, by simpa using hv, h1.symm, by rw [← h2, h1]⟩

/-! ### C4 -/

/-- C4: when a required field is absent or empty, `create_listing` returns
a missing-field error naming the first such field in the source's order
and persists nothing; when all seven fields are present but the payment
verifier fails, it returns a payment error carrying the verifier's reason
and persists nothing — in both cases the store after the call equals the
store before it. -/
theorem create_listing_error_cases (data : List (String × String))
    (file : Option FileUpload) (imageName newId : String) (now1 now2 : Int)
    (store : List Listing) :
    (∀ f, firstMissingField data = some f →
       create_listing data file imageName newId now1 now2 store = (.missingField f, store)
       ∧ fieldMissing data f = true
       ∧ ∃ pre post, required_fields = pre ++ f :: post
           ∧ ∀ f2 ∈ pre, fieldMissing data f2 = false)
    ∧ (firstMissingField data = none →
       ∀ msg,
         verify_payment (formField data "gift_card_number")
           (formField data "card_name") (formField data "amount") = (false, msg) →
         create_listing data file imageName newId now1 now2 store
           = (.paymentError msg, store)) := by
  constructor
  · intro f hf
    obtain ⟨hmiss, l₁, l₂, heq, hall⟩ := find?_eq_some_first _ _ _ hf
    exact ⟨by simp [create_listing, hf], hmiss, l₁, l₂, heq, hall⟩
  · intro hnone msg hv
    simp [create_listing, hnone, hv]

/-- Witness for `create_listing_error_cases`: a form missing `email`
yields that missing-field error, and a full form with a short gift-card
number yields the verifier's reason, the store unchanged both times. -/
theorem create_listing_error_cases_witness :
    (create_listing [("full_name", "A")] none "" "id1" 0 0 []
       = (CreateResult.missingField "email", [])
     ∧ fieldMissing [("full_name", "A")] "email" = true
     ∧ ∃ pre post, required_fields = pre ++ "email" :: post
         ∧ ∀ f2 ∈ pre, fieldMissing [("full_name", "A")] f2 = false)
    ∧ create_listing
        [("full_name", "A"), ("email", "e"), ("title", "t"), ("description", "d"),
         ("gift_card_number", "1234"), ("card_name", "n"), ("amount", "10")]
        none "" "id1" 0 0 []
        = (CreateResult.paymentError "Invalid gift card number format", []) :=
  ⟨(create_listing_error_cases [("full_name", "A")] none "" "id1" 0 0 []).1
     "email" (by decide),
   (create_listing_error_cases
       [("full_name", "A"), ("email", "e"), ("title", "t"), ("description", "d"),
        ("gift_card_number", "1234"), ("card_name", "n"), ("amount", "10")]
       none "" "id1" 0 0 []).2 (by decide)
     "Invalid gift card number format" (by decide)⟩

/-! ### C5 -/

lemma findIndexById_eq_none_iff : ∀ (listings : List Listing) (lid : String),
    findIndexById listings lid = none ↔ ∀ l ∈ listings, l.id ≠ lid
  | [], lid => by simp [findIndexById]
  | l :: ls, lid => by
    by_cases h : l.id == lid
    · simp only [findIndexById, if_pos h]
      constructor
      · intro hc; exact absurd hc (by simp)
      · intro hall; exact absurd (by simpa using h) (hall l (by simp))
    · simp only [findIndexById, if_neg h]
      constructor
      · intro hc
        have hnone : findIndexById ls lid = none := by
          cases hfi : findIndexById ls lid with
          | none => rfl
          | some i => rw [hfi] at hc; simp at hc
        intro x hx
        rcases List.mem_cons.mp hx with rfl | hx
        · simpa using h
        · exact ((findIndexById_eq_none_iff ls lid).mp hnone) x hx
      · intro hall
        have hnone : findIndexById ls lid = none :=
          (findIndexById_eq_none_iff ls lid).mpr
            (fun x hx => hall x (List.mem_cons_of_mem _ hx))
        rw [hnone]; rfl

/-- C5: moderation returns a not-found error when no stored listing has
the given id, and an invalid-action error when the id is found but the
action is none of approve, reject, delete; in both cases the persisted
store is exactly the input store (no mutation, no save). -/
theorem update_listing_error_cases (listing_id : String) (action : Option String)
    (listings : List Listing) :
    ((∀ l ∈ listings, l.id ≠ listing_id) →
       update_listing listing_id action listings = (.notFound, listings))
    ∧ ((∃ l ∈ listings, l.id = listing_id) →
       action ≠ some "approve" → action ≠ some "reject" → action ≠ some "delete" →
       update_listing listing_id action listings = (.invalidAction, listings)) := by
  constructor
  · intro hall
    have h := (findIndexById_eq_none_iff listings listing_id).mpr hall
    simp [update_listing, h]
  · intro hex hna hnr hnd
    have hne : findIndexById listings listing_id ≠ none := by
      intro hc
      obtain ⟨l, hl, hid⟩ := hex
      exact ((findIndexById_eq_none_iff listings listing_id).mp hc) l hl hid
    cases hfi : findIndexById listings listing_id with
    | none => exact absurd hfi hne
    | some i =>
      have hd : (action == some "delete") = false := by simp [hnd]
      have ha : (action == some "approve") = false := by simp [hna]
      have hr : (action == some "reject") = false := by simp [hnr]
      simp [update_listing, hfi, hd, ha, hr]

/-- Witness for `update_listing_error_cases`: an unknown id and an
unrecognized action on a one-listing store. -/
theorem update_listing_error_cases_witness :
    update_listing "zz" (some "approve") [demoListing "1" "Approved"]
      = (ModerateResult.notFound, [demoListing "1" "Approved"])
    ∧ update_listing "1" (some "destroy") [demoListing "1" "Approved"]
      = (ModerateResult.invalidAction, [demoListing "1" "Approved"]) :=
  ⟨(update_listing_error_cases "zz" (some "approve") [demoListing "1" "Approved"]).1
     (by decide),
   (update_listing_error_cases "1" (some "destroy") [demoListing "1" "Approved"]).2
     ⟨demoListing "1" "Approved", by decide, by decide⟩
     (by decide) (by decide) (by decide)⟩

/-! ### C1 -/

lemma takeLast_length (n : Nat) (s : String) : (takeLast n s).length = min n s.length := by
  simp only [takeLast, String.length]
  rw [List.length_drop]
  omega

/-- A concrete form submission used by witnesses and counterexamples; the
submitter has typed the full gift-card number into the title field as
well. -/
def wForm : List (String × String) :=
  [("full_name", "A"), ("email", "a@b.c"), ("title", "ABCDEFGH1234"),
   ("description", "d"), ("gift_card_number", "ABCDEFGH1234"),
   ("card_name", "N"), ("amount", "10")]

/-- C1 counterexample: a successful create whose persisted record contains
the full submitted gift-card number — the submitter typed it into the
`title` field, which is stored verbatim — refuting "the full submitted
number appears nowhere in the persisted record"; the dedicated
`payment_details.gift_card_number` field still holds only the last 4
characters. -/
theorem create_full_number_in_record_cex :
    (createdListing (create_listing wForm none "" "id1" 0 0 []).1).map
        (occursInListing "ABCDEFGH1234") = some true
    ∧ (createdListing (create_listing wForm none "" "id1" 0 0 []).1).map
        (fun l => l.payment_details.gift_card_number) = some "1234" :=
  ⟨by decide, by decide⟩

/-- C1 (amended): for every successful create, the persisted
`payment_details.gift_card_number` equals the last 4 characters of the
submitted number (a strict suffix: the submitted number has length ≥ 8,
the stored redaction exactly 4), and the full submitted number does not
occur inside the redacted field.  Other submitter-provided fields are
stored verbatim, so the record as a whole can still contain the number. -/
theorem create_listing_redacts (data : List (String × String))
    (file : Option FileUpload) (imageName newId : String) (now1 now2 : Int)
    (store : List Listing) (l : Listing) (store' : List Listing)
    (h : create_listing data file imageName newId now1 now2 store = (.created l, store')) :
    l.payment_details.gift_card_number = takeLast 4 (formField data "gift_card_number")
    ∧ l.payment_details.gift_card_number.length = 4
    ∧ 8 ≤ (formField data "gift_card_number").length
    ∧ (formField data "gift_card_number").data
        = (formField data "gift_card_number").data.take
            ((formField data "gift_card_number").length - 4)
          ++ l.payment_details.gift_card_number.data
    ∧ strOccurs (formField data "gift_card_number")
        l.payment_details.gift_card_number = false := by
  obtain ⟨-, hv, hl, -⟩ := create_listing_created_eq h
  obtain ⟨-, hlen⟩ := verify_payment_true_length hv
  subst hl
  refine ⟨rfl, ?_, hlen, ?_, ?_⟩
  · rw [show (builtListing data file imageName newId now1 now2).payment_details.gift_card_number
        = takeLast 4 (formField data "gift_card_number") from rfl]
    rw [takeLast_length]
    omega
  · exact (List.take_append_drop
      ((formField data "gift_card_number").data.length - 4)
      (formField data "gift_card_number").data).symm
  · show strOccurs (formField data "gift_card_number")
      (takeLast 4 (formField data "gift_card_number")) = false
    cases hocc : strOccurs (formField data "gift_card_number")
        (takeLast 4 (formField data "gift_card_number")) with
    | false => rfl
    | true =>
      exfalso
      have hle := listOccurs_length_le _ _ hocc
      have h4 : (takeLast 4 (formField data "gift_card_number")).length
          = min 4 (formField data "gift_card_number").length :=
        takeLast_length 4 (formField data "gift_card_number")
      have hgl : (formField data "gift_card_number").length
          = (formField data "gift_card_number").data.length := rfl
      have htl : (takeLast 4 (formField data "gift_card_number")).length
          = (takeLast 4 (formField data "gift_card_number")).data.length := rfl
      omega

/-- Witness for `create_listing_redacts` at the concrete submission `wForm`. -/
theorem create_listing_redacts_witness :
    (builtListing wForm none "" "id1" 0 0).payment_details.gift_card_number
        = takeLast 4 (formField wForm "gift_card_number")
    ∧ (builtListing wForm none "" "id1" 0 0).payment_details.gift_card_number.length = 4
    ∧ 8 ≤ (formField wForm "gift_card_number").length
    ∧ (formField wForm "gift_card_number").data
        = (formField wForm "gift_card_number").data.take
            ((formField wForm "gift_card_number").length - 4)
          ++ (builtListing wForm none "" "id1" 0 0).payment_details.gift_card_number.data
    ∧ strOccurs (formField wForm "gift_card_number")
        (builtListing wForm none "" "id1" 0 0).payment_details.gift_card_number = false :=
  create_listing_redacts wForm none "" "id1" 0 0 []
    (builtListing wForm none "" "id1" 0 0) ([] ++ [builtListing wForm none "" "id1" 0 0])
    (by decide)

/-! ### C9 -/

/-- C9 counterexample: `created_at` and `verification_date` come from two
distinct `datetime.now()` calls; with the clock reads one microsecond
apart (`now1 = 0`, `now2 = 1`), a successful create yields
`verification_date = 86400000001 ≠ created_at + 24h = 86400000000`, so
"verification_date equals created_at plus exactly 24 hours" fails. -/
theorem create_verification_date_cex :
    (createdListing (create_listing wForm none "" "id9" 0 1 []).1).map
        (fun l => decide (l.verification_date = l.created_at + usPerDay)) = some false
    ∧ (createdListing (create_listing wForm none "" "id9" 0 1 []).1).map
        Listing.verification_date = some 86400000001
    ∧ (createdListing (create_listing wForm none "" "id9" 0 1 []).1).map
        (fun l => l.created_at + usPerDay) = some 86400000000 :=
  ⟨by decide, by decide, by decide⟩

/-- C9 (amended): every successful create yields status `"Pending"`;
`created_at` is the first clock read and `verification_date` is the
second clock read plus exactly 24 hours, so `verification_date` is at
least `created_at + 24h` (clock monotonicity) and equals it exactly when
the two reads coincide. -/
theorem create_pending_and_verification_date (data : List (String × String))
    (file : Option FileUpload) (imageName newId : String) (now1 now2 : Int)
    (store : List Listing) (l : Listing) (store' : List Listing)
    (h : create_listing data file imageName newId now1 now2 store = (.created l, store')) :
    l.status = "Pending"
    ∧ l.created_at = now1
    ∧ l.verification_date = now2 + usPerDay
    ∧ (now1 ≤ now2 → l.created_at + usPerDay ≤ l.verification_date)
    ∧ (now2 = now1 → l.verification_date = l.created_at + usPerDay) := by
  obtain ⟨-, -, hl, -⟩ := create_listing_created_eq h
  subst hl
  refine ⟨rfl, rfl, rfl, ?_, ?_⟩
  · intro hmono
    show now1 + usPerDay ≤ now2 + usPerDay
    exact Int.add_le_add_right hmono usPerDay
  · intro heq
    show now2 + usPerDay = now1 + usPerDay
    rw [heq]

/-- Witness for `create_pending_and_verification_date` with both clock
reads equal to `0`. -/
theorem create_pending_and_verification_date_witness :
    (builtListing wForm none "" "id9" 0 0).status = "Pending"
    ∧ (builtListing wForm none "" "id9" 0 0).created_at = 0
    ∧ (builtListing wForm none "" "id9" 0 0).verification_date = 0 + usPerDay
    ∧ ((0 : Int) ≤ 0 → (builtListing wForm none "" "id9" 0 0).created_at + usPerDay
        ≤ (builtListing wForm none "" "id9" 0 0).verification_date)
    ∧ ((0 : Int) = 0 → (builtListing wForm none "" "id9" 0 0).verification_date
        = (builtListing wForm none "" "id9" 0 0).created_at + usPerDay) :=
  create_pending_and_verification_date wForm none "" "id9" 0 0 []
    (builtListing wForm none "" "id9" 0 0) ([] ++ [builtListing wForm none "" "id9" 0 0])
    (by decide)

/-! ### Moderation structure lemmas -/

lemma setStatus_id (l : Listing) (v : String) : ({ l with status := v } : Listing).id = l.id := rfl

lemma modifyIdx_cons_succ (l : Listing) (ls : List Listing) (i : Nat) (f : Listing → Listing) :
    modifyIdx (l :: ls) (i + 1) f = l :: modifyIdx ls i f := by
  cases h : ls[i]? with
  | none => simp [modifyIdx, h]
  | some x => simp [modifyIdx, h]

lemma update_listing_nil (listing_id : String) (action : Option String) :
    update_listing listing_id action [] = (.notFound, []) := rfl

lemma update_listing_cons (listing_id : String) (action : Option String)
    (l : Listing) (ls : List Listing) :
    update_listing listing_id action (l :: ls) =
      if l.id == listing_id then
        (if action == some "delete" then
           (.ok "Listing deleted successfully", ls)
         else if action == some "approve" then
           (.ok "Listing approved successfully", { l with status := "Approved" } :: ls)
         else if action == some "reject" then
           (.ok "Listing rejected successfully", { l with status := "Rejected" } :: ls)
         else (.invalidAction, l :: ls))
      else
        ((update_listing listing_id action ls).1,
         l :: (update_listing listing_id action ls).2) := by
  by_cases h : (l.id == listing_id) = true
  · rw [if_pos h]
    simp only [update_listing, findIndexById, if_pos h]
    simp [modifyIdx]
  · rw [if_neg h]
    simp only [update_listing, findIndexById, if_neg h]
    cases hfi : findIndexById ls listing_id with
    | none => simp [hfi]
    | some i =>
      simp only [hfi, Option.map_some']
      by_cases hd : (action == some "delete") = true
      · simp [hd]
      · by_cases ha : (action == some "approve") = true
        · simp [hd, ha, modifyIdx_cons_succ]
        · by_cases hr : (action == some "reject") = true
          · simp [hd, ha, hr, modifyIdx_cons_succ]
          · simp [hd, ha, hr]

lemma statusOf_cons (l : Listing) (ls : List Listing) (qid : String) :
    statusOf (l :: ls) qid
      = if l.id == qid then some l.status else statusOf ls qid := by
  cases h : (l.id == qid) with
  | true => simp [statusOf, List.find?_cons, h]
  | false => simp [statusOf, List.find?_cons, h]

lemma statusOf_eq_none_iff (ls : List Listing) (qid : String) :
    statusOf ls qid = none ↔ ∀ l ∈ ls, l.id ≠ qid := by
  simp [statusOf, List.find?_eq_none]

lemma find?_append_some {p : Listing → Bool} :
    ∀ {st : List Listing} {x : Listing}, st.find? p = some x →
      ∀ tl : List Listing, (st ++ tl).find? p = some x := by
  intro st
  induction st with
  | nil => intro x h tl; simp at h
  | cons a as ih =>
    intro x h tl
    cases hp : p a with
    | true =>
      rw [List.find?_cons_of_pos _ hp] at h
      rw [List.cons_append, List.find?_cons_of_pos _ hp]
      exact h
    | false =>
      rw [List.find?_cons_of_neg _ (by simp [hp])] at h
      rw [List.cons_append, List.find?_cons_of_neg _ (by simp [hp])]
      exact ih h tl

lemma statusOf_append_of_some {st : List Listing} {qid : String} {s : String}
    (h : statusOf st qid = some s) (tl : List Listing) :
    statusOf (st ++ tl) qid = some s := by
  simp only [statusOf] at h ⊢
  cases hf : List.find? (fun l => l.id == qid) st with
  | none => rw [hf] at h; simp at h
  | some x =>
    rw [hf] at h
    rw [find?_append_some hf tl]
    exact h

lemma create_listing_snd (data : List (String × String)) (file : Option FileUpload)
    (imageName newId : String) (now1 now2 : Int) (st : List Listing) :
    (create_listing data file imageName newId now1 now2 st).2 = st
    ∨ (create_listing data file imageName newId now1 now2 st).2
        = st ++ [builtListing data file imageName newId now1 now2] := by
  unfold create_listing
  cases hm : firstMissingField data with
  | some f => left; rfl
  | none =>
    dsimp only
    by_cases hv : (verify_payment (formField data "gift_card_number")
        (formField data "card_name") (formField data "amount")).1 = false
    · rw [if_pos hv]; left; rfl
    · rw [if_neg hv]; right; rfl

lemma update_listing_statusOf (listing_id : String) (action : Option String) (qid : String) :
    ∀ st : List Listing, (st.map Listing.id).Nodup →
      statusOf (update_listing listing_id action st).2 qid = statusOf st qid
      ∨ (statusOf st qid ≠ none
         ∧ (statusOf (update_listing listing_id action st).2 qid = none
            ∨ statusOf (update_listing listing_id action st).2 qid = some "Approved"
            ∨ statusOf (update_listing listing_id action st).2 qid = some "Rejected")) := by
  intro st
  induction st with
  | nil => intro _; left; rfl
  | cons l ls ih =>
    intro hnd
    rw [List.map_cons, List.nodup_cons] at hnd
    obtain ⟨hnotmem, hnd'⟩ := hnd
    rw [update_listing_cons]
    by_cases hmatch : (l.id == listing_id) = true
    · rw [if_pos hmatch]
      by_cases hd : (action == some "delete") = true
      · rw [if_pos hd]
        dsimp only
        by_cases hq : (l.id == qid) = true
        · have hqid : l.id = qid := by simpa using hq
          refine Or.inr ⟨?_, Or.inl ?_⟩
          · simp [statusOf_cons, hqid]
          · rw [statusOf_eq_none_iff]
            intro x hx hxid
            exact hnotmem (List.mem_map.mpr ⟨x, hx, hxid.trans hqid.symm⟩)
        · left
          rw [statusOf_cons, if_neg hq]
      · rw [if_neg hd]
        by_cases ha : (action == some "approve") = true
        · rw [if_pos ha]
          dsimp only
          by_cases hq : (l.id == qid) = true
          · refine Or.inr ⟨?_, Or.inr (Or.inl ?_)⟩
            · simp [statusOf_cons, show l.id = qid from by simpa using hq]
            · simp only [statusOf_cons, setStatus_id, if_pos hq]
          · left
            simp only [statusOf_cons, setStatus_id, if_neg hq]
        · rw [if_neg ha]
          by_cases hr : (action == some "reject") = true
          · rw [if_pos hr]
            dsimp only
            by_cases hq : (l.id == qid) = true
            · refine Or.inr ⟨?_, Or.inr (Or.inr ?_)⟩
              · simp [statusOf_cons, show l.id = qid from by simpa using hq]
              · simp only [statusOf_cons, setStatus_id, if_pos hq]
            · left
              simp only [statusOf_cons, setStatus_id, if_neg hq]
          · rw [if_neg hr]
            dsimp only
            left
            rfl
    · rw [if_neg hmatch]
      dsimp only
      by_cases hq : (l.id == qid) = true
      · left
        simp only [statusOf_cons, if_pos hq]
      · simp only [statusOf_cons, if_neg hq]
        exact ih hnd'

/-! ### C6 -/

/-- C6 counterexample: the moderation code applies approve/reject
regardless of the current status, so an Approved listing transitions to
Rejected under the reject action — a transition outside the claimed set
{Pending→Approved, Pending→Rejected, {Pending,Approved,Rejected}→Deleted}. -/
theorem approved_to_rejected_cex :
    statusOf [demoListing "1" "Approved"] "1" = some "Approved"
    ∧ update_listing "1" (some "reject") [demoListing "1" "Approved"]
        = (.ok "Listing rejected successfully", [demoListing "1" "Rejected"])
    ∧ statusOf (applyOp (Op.moderateOp "1" (some "reject"))
        [demoListing "1" "Approved"]) "1" = some "Rejected" :=
  ⟨by decide, by decide, by decide⟩

/-- C6 (amended): over any create or moderate operation on a store with
distinct ids, a stored listing's status either stays unchanged or moves
to "Approved" (approve) or "Rejected" (reject) — from any of Pending,
Approved, Rejected — or the listing is deleted; no transition re-enters
Pending (a listing whose status is not Pending never acquires status
Pending); and moderation of an absent (deleted) id leaves it absent.
The original claim's restriction of approve/reject to Pending sources
does not hold (see the counterexample). -/
theorem listing_status_transitions (op : Op) (st : List Listing) (qid : String)
    (hnd : (st.map Listing.id).Nodup) :
    (∀ s s', statusOf st qid = some s → statusOf (applyOp op st) qid = some s' →
       s' = s ∨ s' = "Approved" ∨ s' = "Rejected")
    ∧ (∀ s s', statusOf st qid = some s → s ≠ "Pending" →
       statusOf (applyOp op st) qid = some s' → s' ≠ "Pending")
    ∧ (∀ listing_id action, op = Op.moderateOp listing_id action →
       statusOf st qid = none → statusOf (applyOp op st) qid = none) := by
  cases op with
  | createOp data file imageName newId now1 now2 =>
    simp only [applyOp]
    have hpres : ∀ s, statusOf st qid = some s →
        statusOf (create_listing data file imageName newId now1 now2 st).2 qid = some s := by
      intro s hs
      rcases create_listing_snd data file imageName newId now1 now2 st with h | h
      · rw [h]; exact hs
      · rw [h]; exact statusOf_append_of_some hs _
    refine ⟨?_, ?_, ?_⟩
    · intro s s' hs hs'
      have h2 := hpres s hs
      rw [h2] at hs'
      injection hs' with h3
      exact Or.inl h3.symm
    · intro s s' hs hsp hs'
      have h2 := hpres s hs
      rw [h2] at hs'
      injection hs' with h3
      rw [← h3]
      exact hsp
    · intro lid act hop
      exact absurd hop (by simp)
  | moderateOp lid act =>
    simp only [applyOp]
    have key := update_listing_statusOf lid act qid st hnd
    refine ⟨?_, ?_, ?_⟩
    · intro s s' hs hs'
      rcases key with h | ⟨hne, h3⟩
      · rw [h, hs] at hs'
        injection hs' with h4
        exact Or.inl h4.symm
      · rcases h3 with h3 | h3 | h3
        · rw [h3] at hs'; exact absurd hs' (by simp)
        · rw [h3] at hs'; injection hs' with h4; exact Or.inr (Or.inl h4.symm)
        · rw [h3] at hs'; injection hs' with h4; exact Or.inr (Or.inr h4.symm)
    · intro s s' hs hsp hs'
      rcases key with h | ⟨hne, h3⟩
      · rw [h, hs] at hs'
        injection hs' with h4
        rw [← h4]
        exact hsp
      · rcases h3 with h3 | h3 | h3
        · rw [h3] at hs'; exact absurd hs' (by simp)
        · rw [h3] at hs'; injection hs' with h4; rw [← h4]; decide
        · rw [h3] at hs'; injection hs' with h4; rw [← h4]; decide
    · intro lid2 act2 hop hn
      rcases key with h | ⟨hne, h3⟩
      · rw [h]; exact hn
      · exact absurd hn hne

/-- Witness for `listing_status_transitions`: approving a Pending listing
lands in the allowed set. -/
theorem listing_status_transitions_witness :
    ("Approved" : String) = "Pending" ∨ ("Approved" : String) = "Approved"
    ∨ ("Approved" : String) = "Rejected" :=
  (listing_status_transitions (Op.moderateOp "1" (some "approve"))
      [demoListing "1" "Pending"] "1" (by decide)).1
    "Pending" "Approved" (by decide) (by decide)

/-! ### C7 -/

lemma update_approve_idem (listing_id : String) :
    ∀ st : List Listing,
      update_listing listing_id (some "approve")
          ((update_listing listing_id (some "approve") st).2)
        = update_listing listing_id (some "approve") st := by
  have hd : ((some "approve" : Option String) == some "delete") = false := by decide
  have ha : ((some "approve" : Option String) == some "approve") = true := by decide
  intro st
  induction st with
  | nil => rfl
  | cons l ls ih =>
    by_cases hmatch : (l.id == listing_id) = true
    · rw [update_listing_cons, if_pos hmatch, if_neg (by simp [hd]), if_pos ha]
      dsimp only
      rw [update_listing_cons,
        if_pos (show (({ l with status := "Approved" } : Listing).id == listing_id) = true
          from hmatch),
        if_neg (by simp [hd]), if_pos ha]
    · rw [update_listing_cons, if_neg hmatch]
      dsimp only
      rw [update_listing_cons, if_neg hmatch, ih]

lemma update_reject_idem (listing_id : String) :
    ∀ st : List Listing,
      update_listing listing_id (some "reject")
          ((update_listing listing_id (some "reject") st).2)
        = update_listing listing_id (some "reject") st := by
  have hd : ((some "reject" : Option String) == some "delete") = false := by decide
  have ha : ((some "reject" : Option String) == some "approve") = false := by decide
  have hr : ((some "reject" : Option String) == some "reject") = true := by decide
  intro st
  induction st with
  | nil => rfl
  | cons l ls ih =>
    by_cases hmatch : (l.id == listing_id) = true
    · rw [update_listing_cons, if_pos hmatch, if_neg (by simp [hd]),
        if_neg (by simp [ha]), if_pos hr]
      dsimp only
      rw [update_listing_cons,
        if_pos (show (({ l with status := "Rejected" } : Listing).id == listing_id) = true
          from hmatch),
        if_neg (by simp [hd]), if_neg (by simp [ha]), if_pos hr]
    · rw [update_listing_cons, if_neg hmatch]
      dsimp only
      rw [update_listing_cons, if_neg hmatch, ih]

lemma update_approve_noop (listing_id : String) :
    ∀ (st : List Listing) (l0 : Listing),
      st.find? (fun x => x.id == listing_id) = some l0 → l0.status = "Approved" →
      update_listing listing_id (some "approve") st
        = (.ok "Listing approved successfully", st) := by
  have hd : ((some "approve" : Option String) == some "delete") = false := by decide
  have ha : ((some "approve" : Option String) == some "approve") = true := by decide
  intro st
  induction st with
  | nil => intro l0 h _; simp at h
  | cons l ls ih =>
    intro l0 hf hst
    cases hmatch : (l.id == listing_id) with
    | true =>
      simp only [List.find?_cons, hmatch] at hf
      obtain rfl : l = l0 := by injection hf
      rw [update_listing_cons, if_pos hmatch, if_neg (by simp [hd]), if_pos ha]
      have heq : ({ l with status := "Approved" } : Listing) = l := by
        obtain ⟨id0, fn, em, ti, de, iu, pd, stt, ca, vd⟩ := l
        dsimp only at hst
        subst hst
        rfl
      rw [heq]
    | false =>
      simp only [List.find?_cons, hmatch] at hf
      rw [update_listing_cons, if_neg (by simp [hmatch]), ih l0 hf hst]

lemma update_reject_noop (listing_id : String) :
    ∀ (st : List Listing) (l0 : Listing),
      st.find? (fun x => x.id == listing_id) = some l0 → l0.status = "Rejected" →
      update_listing listing_id (some "reject") st
        = (.ok "Listing rejected successfully", st) := by
  have hd : ((some "reject" : Option String) == some "delete") = false := by decide
  have ha : ((some "reject" : Option String) == some "approve") = false := by decide
  have hr : ((some "reject" : Option String) == some "reject") = true := by decide
  intro st
  induction st with
  | nil => intro l0 h _; simp at h
  | cons l ls ih =>
    intro l0 hf hst
    cases hmatch : (l.id == listing_id) with
    | true =>
      simp only [List.find?_cons, hmatch] at hf
      obtain rfl : l = l0 := by injection hf
      rw [update_listing_cons, if_pos hmatch, if_neg (by simp [hd]),
        if_neg (by simp [ha]), if_pos hr]
      have heq : ({ l with status := "Rejected" } : Listing) = l := by
        obtain ⟨id0, fn, em, ti, de, iu, pd, stt, ca, vd⟩ := l
        dsimp only at hst
        subst hst
        rfl
      rw [heq]
    | false =>
      simp only [List.find?_cons, hmatch] at hf
      rw [update_listing_cons, if_neg (by simp [hmatch]), ih l0 hf hst]

/-- C7: `moderate(id, "approve")` is idempotent — a second application
returns the same result and the same store as the first — and applying it
to an already-Approved listing succeeds with the success message and
leaves the store exactly unchanged; likewise `moderate(id, "reject")` on
an already-Rejected listing. -/
theorem moderate_idempotent (listing_id : String) (st : List Listing) :
    update_listing listing_id (some "approve")
        ((update_listing listing_id (some "approve") st).2)
      = update_listing listing_id (some "approve") st
    ∧ update_listing listing_id (some "reject")
        ((update_listing listing_id (some "reject") st).2)
      = update_listing listing_id (some "reject") st
    ∧ (∀ l0, st.find? (fun x => x.id == listing_id) = some l0 → l0.status = "Approved" →
       update_listing listing_id (some "approve") st
         = (.ok "Listing approved successfully", st))
    ∧ (∀ l0, st.find? (fun x => x.id == listing_id) = some l0 → l0.status = "Rejected" →
       update_listing listing_id (some "reject") st
         = (.ok "Listing rejected successfully", st)) :=
  ⟨update_approve_idem listing_id st, update_reject_idem listing_id st,
   update_approve_noop listing_id st, update_reject_noop listing_id st⟩

/-- Witness for `moderate_idempotent`: re-approving an Approved listing
and re-rejecting a Rejected one are exact no-ops on the store. -/
theorem moderate_idempotent_witness :
    update_listing "1" (some "approve") [demoListing "1" "Approved"]
      = (.ok "Listing approved successfully", [demoListing "1" "Approved"])
    ∧ update_listing "2" (some "reject") [demoListing "2" "Rejected"]
      = (.ok "Listing rejected successfully", [demoListing "2" "Rejected"]) :=
  ⟨(moderate_idempotent "1" [demoListing "1" "Approved"]).2.2.1
     (demoListing "1" "Approved") (by decide) rfl,
   (moderate_idempotent "2" [demoListing "2" "Rejected"]).2.2.2
     (demoListing "2" "Rejected") (by decide) rfl⟩

/-! ### C8 -/

/-- C8 counterexample: the write path is `open(DATA_FILE, 'w')` followed
by `json.dump` — not an atomic replace.  Interrupting the call right
after the truncating open leaves an empty file, a visible partial state
on which a subsequent `loadAll` fails instead of returning the saved
sequence, so the guarantee does not hold under mid-write interruption. -/
theorem saveAll_interrupted_cex :
    FileContent.truncated ∈ saveAllTrace [demoListing "1" "Pending"]
    ∧ loadAll FileContent.truncated
        = Except.error "Expecting value: line 1 column 1 (char 0)"
    ∧ loadAll FileContent.truncated ≠ Except.ok [demoListing "1" "Pending"] :=
  ⟨by decide, rfl, fun h => Except.noConfusion h⟩

/-- C8 (amended): after a completed, uninterrupted `saveAll`, a subsequent
`loadAll` returns exactly the saved sequence of records; an interrupted
write never surfaces a wrong or partial listing sequence as data, but it
can leave a truncated file on which `loadAll` fails with a JSON decode
error — the round-trip guarantee holds only for uninterrupted saves. -/
theorem saveAll_loadAll_roundtrip (listings : List Listing) :
    loadAll (saveAll listings) = Except.ok listings
    ∧ (saveAllTrace listings).getLast? = some (saveAll listings)
    ∧ ∀ c ∈ saveAllTrace listings,
        loadAll c = Except.ok listings
        ∨ loadAll c = Except.error "Expecting value: line 1 column 1 (char 0)" := by
  refine ⟨rfl, rfl, ?_⟩
  intro c hc
  rcases List.mem_cons.mp hc with rfl | hc2
  · right; rfl
  · have : c = FileContent.json listings := by simpa using hc2
    subst this
    left
    rfl

/-- Witness for `saveAll_loadAll_roundtrip` at a one-listing store. -/
theorem saveAll_loadAll_roundtrip_witness :
    loadAll (saveAll [demoListing "1" "Pending"]) = Except.ok [demoListing "1" "Pending"]
    ∧ (loadAll (FileContent.json [demoListing "1" "Pending"])
         = Except.ok [demoListing "1" "Pending"]
       ∨ loadAll (FileContent.json [demoListing "1" "Pending"])
         = Except.error "Expecting value: line 1 column 1 (char 0)") :=
  ⟨(saveAll_loadAll_roundtrip [demoListing "1" "Pending"]).1,
   (saveAll_loadAll_roundtrip [demoListing "1" "Pending"]).2.2
     (FileContent.json [demoListing "1" "Pending"]) (by decide)⟩
